import Mathlib

/- Shallow embedding of the Flaky Test Doctor core (mcp_server.py together
   with adapters/log_store.py).  Python strings are modelled as Lean
   `String`, Python floats as exact rationals `ℚ`, and the ASCII fragments
   of `str.strip`, `str.lower`, `str.title` and the `re` word-character
   class are implemented explicitly so that every definition reduces in
   the kernel. -/

namespace FlakyDoctor

/-- ASCII whitespace recognised by Python `str.strip()`. -/
def pyIsSpace (c : Char) : Bool :=
  c = ' ' || c = '\t' || c = '\n' || c = '\r' || c = '\x0b' || c = '\x0c'

/-- Python `str.strip()` on ASCII input. -/
def pyStrip (s : String) : String :=
  String.mk ((s.data.dropWhile pyIsSpace).reverse.dropWhile pyIsSpace).reverse

/-- Lowercase one ASCII character, as Python `str.lower()` does. -/
def pyLowerChar (c : Char) : Char :=
  if 65 ≤ c.toNat ∧ c.toNat ≤ 90 then Char.ofNat (c.toNat + 32) else c

/-- Python `str.lower()` on ASCII input. -/
def pyLower (s : String) : String := String.mk (s.data.map pyLowerChar)

/-- The normalisation comprehension `[s.strip().lower() for s in history if s.strip()]`
shared by `_classify_simple` and `tool_suggest_fix`: keep the tokens that are
non-empty after trimming, and trim and lowercase the survivors. -/
def normalizeHistory (history : List String) : List String :=
  (history.filter (fun s => pyStrip s != "")).map (fun s => pyLower (pyStrip s))

/-- Result record of `_classify_simple` (the dict with keys label, failures,
runs, flaky). -/
structure ClassifyResult where
  label : String
  failures : Nat
  runs : Nat
  flaky : Bool
  deriving Repr, DecidableEq

/-- The count of "fail" tokens of a normalised history
(`sum(s == "fail" for s in h)`). -/
def failCount (h : List String) : Nat := (h.filter (fun s => s == "fail")).length

/-- The failure rate `fails / max(n, 1)` of a normalised history, as an
exact rational. -/
def failRate (h : List String) : ℚ := (failCount h : ℚ) / (max h.length 1 : ℚ)

/-- Translation of `_classify_simple` (mcp_server.py, lines 136-147).  The
Python float failure rate is modelled as an exact rational. -/
def classifySimple (history : List String) : ClassifyResult :=
  let h := normalizeHistory history
  let mixed := h.contains "fail" && h.contains "pass"
  let label : String :=
    if mixed && decide ((0.1 : ℚ) ≤ failRate h ∧ failRate h ≤ (0.9 : ℚ)) then "Flaky"
    else if decide ((0.0 : ℚ) < failRate h) && !mixed then "Regressing"
    else "Stable"
  { label := label, failures := failCount h, runs := h.length, flaky := label == "Flaky" }

/-- The label rule exactly as the specification words it, for comparison
with `classifySimple`: normalise, count the "fail" tokens, let mixed hold
iff both outcomes occur, let rate be fails over max(n, 1); the first
matching case of Flaky / Regressing / Stable wins. -/
def specLabel (history : List String) : String :=
  let h := normalizeHistory history
  if ("fail" ∈ h ∧ "pass" ∈ h) ∧ (0.1 : ℚ) ≤ failRate h ∧ failRate h ≤ (0.9 : ℚ) then "Flaky"
  else if 0 < failRate h ∧ ¬("fail" ∈ h ∧ "pass" ∈ h) then "Regressing"
  else "Stable"

theorem contains_eq_mem (l : List String) (a : String) :
    l.contains a = decide (a ∈ l) := by
  by_cases h : a ∈ l <;> simp [h, List.elem_iff, List.contains]

theorem zeroFloat : (0.0 : ℚ) = 0 := by norm_num

/-- The label computed by `_classify_simple` agrees with the label rule as
the specification words it. -/
theorem classifySimple_label_eq_specLabel (history : List String) :
    (classifySimple history).label = specLabel history := by
  unfold classifySimple specLabel
  by_cases hm : ("fail" ∈ normalizeHistory history ∧ "pass" ∈ normalizeHistory history) <;>
  by_cases hr1 : ((0.1 : ℚ) ≤ failRate (normalizeHistory history) ∧
      failRate (normalizeHistory history) ≤ (0.9 : ℚ)) <;>
  by_cases hr0 : ((0 : ℚ) < failRate (normalizeHistory history)) <;>
  simp [contains_eq_mem, zeroFloat, hm, hr1, hr0]

theorem normalizeHistory_replicate_fail (n : Nat) :
    normalizeHistory (List.replicate n "fail") = List.replicate n "fail" := by
  induction n with
  | zero => rfl
  | succ k ih =>
    have h1 : (pyStrip "fail" != "") = true := by decide
    have h2 : pyLower (pyStrip "fail") = "fail" := by decide
    rw [List.replicate_succ]
    simp only [normalizeHistory, List.filter_cons, h1, if_true, List.map_cons, h2]
    exact congrArg (List.cons "fail") ih

theorem filter_fail_replicate (n : Nat) :
    (List.replicate n "fail").filter (fun s => s == "fail") = List.replicate n "fail" := by
  induction n with
  | zero => rfl
  | succ m ih => simp [List.replicate_succ, List.filter_cons, ih]

theorem failRate_replicate_fail (k : Nat) :
    failRate (List.replicate (k + 1) "fail") = 1 := by
  have hlen : (1 : ℚ) ≤ ((k + 1 : Nat) : ℚ) := by exact_mod_cast Nat.succ_le_succ (Nat.zero_le k)
  simp only [failRate, failCount, filter_fail_replicate, List.length_replicate]
  rw [max_eq_left hlen]
  exact div_self (by positivity)

theorem classifySimple_all_fail (k : Nat) :
    (classifySimple (List.replicate (k + 1) "fail")).label = "Regressing" := by
  have hpass : (List.replicate (k + 1) "fail").contains "pass" = false := by
    simp [contains_eq_mem, List.mem_replicate]
  unfold classifySimple
  rw [normalizeHistory_replicate_fail]
  simp [hpass, failRate_replicate_fail, zeroFloat]

/-- C1: the History Classifier normalises the raw tokens, counts runs and
failures over the normalised list, labels by the mixed / rate rule with
first match winning (so an all-fail history is Regressing, not Flaky), and
reports flaky exactly when the label is Flaky. -/
theorem claim_C1_history_classifier (history : List String) (k : Nat) :
    (classifySimple history).runs = (normalizeHistory history).length
  ∧ (classifySimple history).failures = failCount (normalizeHistory history)
  ∧ (classifySimple history).label = specLabel history
  ∧ (classifySimple history).flaky = ((classifySimple history).label == "Flaky")
  ∧ (classifySimple (List.replicate (k + 1) "fail")).label = "Regressing" :=
  ⟨rfl, rfl, classifySimple_label_eq_specLabel history, rfl, classifySimple_all_fail k⟩

/-- C6: the classifier's runs equals the normalised length, failures never
exceeds runs, and the empty history yields Stable / 0 / 0 / false. -/
theorem claim_C6_runs_failures_empty (history : List String) :
    (classifySimple history).runs = (normalizeHistory history).length
  ∧ (classifySimple history).failures ≤ (classifySimple history).runs
  ∧ classifySimple [] = { label := "Stable", failures := 0, runs := 0, flaky := false } := by
  refine ⟨rfl, List.length_filter_le _ _, ?_⟩
  have h0 : failRate ([] : List String) = 0 := by simp [failRate, failCount]
  unfold classifySimple
  simp [normalizeHistory, h0, zeroFloat, failCount]

/-- The four fix-hint strings of `tool_suggest_fix`. -/
def tipSeed : String := "Seed RNG; replace time.sleep with condition-based waits."

def tipFreeze : String := "Freeze time (freezegun/fake timers) to eliminate clock drift."

def tipMock : String := "Mock external deps (network/files/db) to remove nondeterminism."

def tipOrder : String := "Ensure test order independence; isolate global state and I/O."

/-- Code-point lexicographic comparison, the order Python `sorted` uses on
strings. -/
def lexLeChars : List Char → List Char → Bool
  | [], _ => true
  | _ :: _, [] => false
  | a :: as, b :: bs => if a = b then lexLeChars as bs else decide (a.toNat < b.toNat)

/-- String comparison used to model Python `sorted` on strings. -/
def strLe (a b : String) : Bool := lexLeChars a.data b.data

/-- Insertion step of the sort modelling Python `sorted`. -/
def insertSorted (x : String) : List String → List String
  | [] => [x]
  | y :: ys => if strLe x y then x :: y :: ys else y :: insertSorted x ys

/-- Sort a list of strings in code-point lexicographic order. -/
def sortStrings (l : List String) : List String := l.foldr insertSorted []

/-- Translation of `tool_suggest_fix` (mcp_server.py, lines 153-161): the
Python set of tips is modelled as the deduplicated list of the same
insertions, and `sorted` as `sortStrings`. -/
def toolSuggestFix (history : List String) : List String :=
  let h := normalizeHistory history
  let tips : List String :=
    if h.contains "fail" && h.contains "pass" then [tipSeed, tipFreeze, tipMock, tipOrder]
    else [tipMock, tipOrder]
  sortStrings tips.dedup

theorem toolSuggestFix_eq (history : List String) :
    toolSuggestFix history =
      (if (normalizeHistory history).contains "fail" && (normalizeHistory history).contains "pass"
       then [tipOrder, tipFreeze, tipMock, tipSeed] else [tipOrder, tipMock]) := by
  unfold toolSuggestFix
  cases hb : ((normalizeHistory history).contains "fail" &&
      (normalizeHistory history).contains "pass") with
  | false => simp only [hb, Bool.false_eq_true, if_false]; decide
  | true => simp only [hb, if_true]; decide

/-- C7: the Fix Suggester output is lexicographically sorted and free of
duplicates, always contains the two baseline hints, contains the two
mixed-history hints when the normalised history has both outcomes, and a
mixed history yields strictly more hints than a non-mixed one. -/
theorem claim_C7_suggest_fix (history other : List String) :
    List.Pairwise (fun a b => strLe a b = true) (toolSuggestFix history)
  ∧ (toolSuggestFix history).Nodup
  ∧ tipMock ∈ toolSuggestFix history ∧ tipOrder ∈ toolSuggestFix history
  ∧ (("fail" ∈ normalizeHistory history ∧ "pass" ∈ normalizeHistory history) →
      tipSeed ∈ toolSuggestFix history ∧ tipFreeze ∈ toolSuggestFix history
      ∧ (¬("fail" ∈ normalizeHistory other ∧ "pass" ∈ normalizeHistory other) →
          (toolSuggestFix other).length < (toolSuggestFix history).length)) := by
  rw [toolSuggestFix_eq history, toolSuggestFix_eq other]
  simp only [contains_eq_mem, ← Bool.decide_and]
  by_cases hm : ("fail" ∈ normalizeHistory history ∧ "pass" ∈ normalizeHistory history) <;>
  by_cases ho : ("fail" ∈ normalizeHistory other ∧ "pass" ∈ normalizeHistory other) <;>
  simp [hm, ho] <;> decide

/-- Closed instance of C7 at a mixed and a one-outcome history. -/
theorem claim_C7_suggest_fix_witness :
    tipSeed ∈ toolSuggestFix ["pass", "fail"]
  ∧ (toolSuggestFix ["pass"]).length < (toolSuggestFix ["pass", "fail"]).length := by
  have h := claim_C7_suggest_fix ["pass", "fail"] ["pass"]
  have hm : ("fail" ∈ normalizeHistory ["pass", "fail"] ∧
      "pass" ∈ normalizeHistory ["pass", "fail"]) := by decide
  have ho : ¬("fail" ∈ normalizeHistory ["pass"] ∧ "pass" ∈ normalizeHistory ["pass"]) := by
    decide
  exact ⟨(h.2.2.2.2 hm).1, (h.2.2.2.2 hm).2.2 ho⟩

/-- Aggregate run metrics as returned by `ActionsMetrics.summarize`; the
float pass rate is modelled as an exact rational. -/
structure Metrics where
  total : Nat
  passed : Nat
  failed : Nat
  pass_rate : ℚ
  deriving Repr, DecidableEq

/-- Request schema `ClassifyAggregateRequest` (mcp_server.py, lines
114-119). -/
structure ClassifyAggregateRequest where
  test_name : String
  repo : Option String := none
  run_id : Option Int := none
  history : Option (List String) := none
  max_log_snippets : Nat := 20
  deriving Repr, DecidableEq

/-- Evidence snapshot echoed in the aggregate response. -/
structure Evidence where
  pass_rate : ℚ
  runs_total : Nat
  log_snippets : List String
  deriving Repr, DecidableEq

/-- The score dict over the categories flake, regression, infra. -/
structure Score where
  flake : ℚ
  regression : ℚ
  infra : ℚ
  deriving Repr, DecidableEq

/-- Response schema `ClassifyAggregateResponse`. -/
structure ClassifyAggregateResponse where
  label : String
  flaky : Bool
  score : Score
  failures : Nat
  runs : Nat
  evidence : Evidence
  reasons : List String
  deriving Repr, DecidableEq

/-- Python truthiness of the optional repo string (`if req.repo:`): None
and the empty string are falsy. -/
def optStrTruthy : Option String → Bool
  | none => false
  | some s => s != ""

/-- Python truthiness of the optional integer run id (`req.run_id`): None
and 0 are falsy. -/
def optIntTruthy : Option Int → Bool
  | none => false
  | some i => i != 0

/-- Python truthiness of the optional history list (`if req.history:`). -/
def optListTruthy : Option (List String) → Bool
  | none => false
  | some l => !l.isEmpty

/-- The tuple `INFRA_PATTERNS` (mcp_server.py, line 201). -/
def INFRA_PATTERNS : List String :=
  ["connection reset", "timeout", "503", "network is unreachable", "dns", "rate limit"]

/-- Bool test that the first list is an initial segment of the second. -/
def charsStartWith : List Char → List Char → Bool
  | [], _ => true
  | _ :: _, [] => false
  | p :: ps, c :: cs => p = c && charsStartWith ps cs

/-- Python substring containment `pat in s`. -/
def strContainsSub (s pat : String) : Bool :=
  (List.range (s.data.length + 1)).any (fun i => charsStartWith pat.data (s.data.drop i))

/-- One snippet matches an infra pattern: `any(pat in s.lower() for pat in
INFRA_PATTERNS)` for this `s`. -/
def snippetIsInfra (s : String) : Bool :=
  INFRA_PATTERNS.any (fun pat => strContainsSub (pyLower s) pat)

/-- Uppercase one ASCII character, as Python `str.upper()` does. -/
def pyUpperChar (c : Char) : Char :=
  if 97 ≤ c.toNat ∧ c.toNat ≤ 122 then Char.ofNat (c.toNat - 32) else c

/-- ASCII letter test. -/
def isAsciiLetter (c : Char) : Bool :=
  (65 ≤ c.toNat ∧ c.toNat ≤ 90) || (97 ≤ c.toNat ∧ c.toNat ≤ 122)

/-- Worker for `pyTitle`; the flag records whether the previous character
was a letter. -/
def pyTitleChars : Bool → List Char → List Char
  | _, [] => []
  | prevAlpha, c :: cs =>
    (if isAsciiLetter c then (if prevAlpha then pyLowerChar c else pyUpperChar c) else c)
      :: pyTitleChars (isAsciiLetter c) cs

/-- Python `str.title()` on ASCII input. -/
def pyTitle (s : String) : String := String.mk (pyTitleChars false s.data)

/-- Python `max(score, key=score.get)` over the dict with insertion order
flake, regression, infra: a later key replaces the current best only when
its score is strictly greater, so the first maximum wins ties. -/
def pickMaxKey (sc : Score) : String :=
  let best : String × ℚ := ("flake", sc.flake)
  let best := if sc.regression > best.2 then ("regression", sc.regression) else best
  let best := if sc.infra > best.2 then ("infra", sc.infra) else best
  best.1

/-- The winner rule as the specification words it: the category with the
maximum score, flake winning exact ties over regression and regression
over infra. -/
def specWinner (sc : Score) : String :=
  if sc.regression ≤ sc.flake ∧ sc.infra ≤ sc.flake then "flake"
  else if sc.infra ≤ sc.regression then "regression"
  else "infra"

/-- Python `round(x)` to an integer: nearest, ties to even. -/
def roundHalfEven (x : ℚ) : ℤ :=
  if x - ⌊x⌋ < 1/2 then ⌊x⌋
  else if 1/2 < x - ⌊x⌋ then ⌊x⌋ + 1
  else if 2 ∣ ⌊x⌋ then ⌊x⌋ else ⌊x⌋ + 1

/-- Python `round(v, 3)` on the score values. -/
def pyRound3 (v : ℚ) : ℚ := (roundHalfEven (v * 1000) : ℚ) / 1000

/-- Evidence providers as oracles: `metrics repo` models
`ActionsMetrics.list_runs` plus `summarize`, and `logs repo run_id cap`
models `LogStore.fetch_run_logs_zip` plus `extract_failure_snippets` with
`max_files=10`; an `Except.error` models a raised provider exception. -/
structure Providers where
  metrics : String → Except String Metrics
  logs : String → Int → Nat → Except String (List String)

/-- The base history label of `tool_classify_aggregate` (lines 228-237):
Unknown unless a non-empty history was supplied. -/
def historyLabel (req : ClassifyAggregateRequest) : String :=
  if optListTruthy req.history then (classifySimple (req.history.getD [])).label else "Unknown"

/-- The failures count echoed by `tool_classify_aggregate`. -/
def historyFailures (req : ClassifyAggregateRequest) : Nat :=
  if optListTruthy req.history then (classifySimple (req.history.getD [])).failures else 0

/-- The runs count echoed by `tool_classify_aggregate`. -/
def historyRuns (req : ClassifyAggregateRequest) : Nat :=
  if optListTruthy req.history then (classifySimple (req.history.getD [])).runs else 0

/-- The scoring section of `tool_classify_aggregate` (lines 239-252): the
score dict after the three signals, starting from all zeros, with the
Python elif structure kept. -/
def rawScore (base_label : String) (pass_rate : ℚ) (runs_total : Nat)
    (log_snips : List String) : Score :=
  let s0 : Score := { flake := 0, regression := 0, infra := 0 }
  let s1 :=
    if base_label = "Flaky" then { s0 with flake := s0.flake + 0.6 }
    else if base_label = "Regressing" then { s0 with regression := s0.regression + 0.5 }
    else s0
  let s2 :=
    if (90.0 : ℚ) ≤ pass_rate then { s1 with flake := s1.flake + 0.2 }
    else if pass_rate ≤ (50.0 : ℚ) ∧ 10 ≤ runs_total then
      { s1 with regression := s1.regression + 0.2 }
    else s1
  if log_snips.any snippetIsInfra then { s2 with infra := s2.infra + 0.6 } else s2

/-- The justification lines appended by the history and log signals, in
source order. -/
def signalReasons (base_label : String) (log_snips : List String) : List String :=
  (if base_label = "Flaky" then ["Mixed pass/fail history suggests flake."]
   else if base_label = "Regressing" then ["Consistent failures suggest regression."] else [])
  ++ (if log_snips.any snippetIsInfra then
        ["CI logs match infra-like patterns (timeouts/network)."] else [])

/-- Translation of the history / scoring / label part of
`tool_classify_aggregate` (mcp_server.py, lines 227-268), given the values
the two evidence fetches produced and the fetch-stage justification
lines. -/
def classifyCore (req : ClassifyAggregateRequest) (pass_rate : ℚ) (runs_total : Nat)
    (log_snips : List String) (reasons0 : List String) : ClassifyAggregateResponse :=
  let score := rawScore (historyLabel req) pass_rate runs_total log_snips
  let label0 := pyTitle (pickMaxKey score)
  let flaky := label0 = "Flake"
  let label := if label0 = "Flake" then "Flaky" else label0
  { label := label, flaky := flaky,
    score := { flake := pyRound3 score.flake, regression := pyRound3 score.regression,
               infra := pyRound3 score.infra },
    failures := historyFailures req, runs := historyRuns req,
    evidence := { pass_rate := pass_rate, runs_total := runs_total, log_snippets := log_snips },
    reasons := reasons0 ++ signalReasons (historyLabel req) log_snips }

/-- The metrics fetch of `tool_classify_aggregate` (lines 210-217). -/
def fetchMetrics (pv : Providers) (req : ClassifyAggregateRequest) :
    Except String (Option Metrics) :=
  if optStrTruthy req.repo then
    match pv.metrics (req.repo.getD "") with
    | .error e => .error e
    | .ok m => .ok (some m)
  else .ok none

/-- The log fetch of `tool_classify_aggregate` (lines 219-225): only when
both `req.repo` and `req.run_id` are truthy. -/
def fetchLogs (pv : Providers) (req : ClassifyAggregateRequest) :
    Except String (List String) :=
  if optStrTruthy req.repo && optIntTruthy req.run_id then
    pv.logs (req.repo.getD "") (req.run_id.getD 0) req.max_log_snippets
  else .ok []

/-- Translation of `tool_classify_aggregate` (mcp_server.py, lines
203-268): evidence fetches, with a provider exception propagating as
`Except.error`, then `classifyCore`. -/
def toolClassifyAggregate (pv : Providers) (req : ClassifyAggregateRequest) :
    Except String ClassifyAggregateResponse :=
  match fetchMetrics pv req with
  | .error e => .error e
  | .ok metricsRes =>
    let pass_rate := (metricsRes.map (·.pass_rate)).getD 0.0
    let runs_total := (metricsRes.map (·.total)).getD 0
    let reasonsA : List String :=
      match metricsRes with
      | some m => ["Actions pass_rate=" ++ toString m.pass_rate ++ "% over "
                     ++ toString m.total ++ " runs."]
      | none => []
    match fetchLogs pv req with
    | .error e => .error e
    | .ok log_snips =>
      let reasonsB : List String :=
        if !log_snips.isEmpty then
          ["Collected " ++ toString log_snips.length ++ " error lines from CI logs."]
        else []
      .ok (classifyCore req pass_rate runs_total log_snips (reasonsA ++ reasonsB))

/-- Outcome of `handle` for a classify_aggregate request: either the tool
result or the JSON-RPC error object built at mcp_server.py lines
350-353. -/
inductive RpcOutcome where
  | result (resp : ClassifyAggregateResponse)
  | rpcError (code : Int) (message : String)
  deriving Repr, DecidableEq

/-- The `handle` dispatch for classify_aggregate: an exception escaping the
tool body is converted into JSON-RPC error -32603. -/
def handleClassifyAggregate (pv : Providers) (req : ClassifyAggregateRequest) : RpcOutcome :=
  match toolClassifyAggregate pv req with
  | .ok resp => .result resp
  | .error e => .rpcError (-32603) ("Internal error: " ++ e)

theorem pyRound3_zero : pyRound3 0 = 0 := by
  unfold pyRound3 roundHalfEven
  norm_num

/-- The Python max over the score dict agrees with the tie-break rule as
the specification words it. -/
theorem pickMaxKey_eq_specWinner (sc : Score) : pickMaxKey sc = specWinner sc := by
  by_cases h1 : sc.flake < sc.regression <;> by_cases h2 : sc.regression < sc.infra <;>
  by_cases h3 : sc.flake < sc.infra <;>
  simp only [pickMaxKey, specWinner, gt_iff_lt, h1, h2, h3, if_true, if_false,
    ite_true, ite_false] <;>
  split_ifs with a b <;>
  first
  | rfl
  | (exfalso; rcases a with ⟨a1, a2⟩; linarith)
  | (exfalso; linarith)
  | (exfalso; exact a ⟨by linarith, by linarith⟩)

theorem specWinner_cases (sc : Score) :
    specWinner sc = "flake" ∨ specWinner sc = "regression" ∨ specWinner sc = "infra" := by
  unfold specWinner
  split_ifs <;> simp

/-- C4: the aggregate label is the title-cased maximum-score category,
flake winning exact ties over regression and regression over infra, the
winning category "flake" is displayed as "Flaky" while the others are
title-cased, and the flaky flag holds exactly when the winner is
"flake". -/
theorem claim_C4_winner_selection (req : ClassifyAggregateRequest) (pr : ℚ) (rt : Nat)
    (snips reasons : List String) :
    (classifyCore req pr rt snips reasons).label =
      (if specWinner (rawScore (historyLabel req) pr rt snips) = "flake" then "Flaky"
       else pyTitle (specWinner (rawScore (historyLabel req) pr rt snips)))
  ∧ (classifyCore req pr rt snips reasons).flaky =
      decide (specWinner (rawScore (historyLabel req) pr rt snips) = "flake")
  ∧ pyTitle "flake" = "Flake" ∧ pyTitle "regression" = "Regression"
  ∧ pyTitle "infra" = "Infra" := by
  have hps := pickMaxKey_eq_specWinner (rawScore (historyLabel req) pr rt snips)
  rcases specWinner_cases (rawScore (historyLabel req) pr rt snips) with hw | hw | hw <;>
    simp only [classifyCore, hps, hw] <;>
    exact ⟨by decide, by decide, by decide, by decide, by decide⟩

/-- Providers whose fetches always raise, modelling a network failure. -/
def pvFail : Providers :=
  { metrics := fun _ => .error "getaddrinfo failed",
    logs := fun _ _ _ => .error "getaddrinfo failed" }

/-- A classify_aggregate request that supplies a repository. -/
def reqRepo : ClassifyAggregateRequest :=
  { test_name := "t", repo := some "owner/repo", run_id := none,
    history := some ["pass", "fail"], max_log_snippets := 20 }

/-- C5 exhibits the divergence: with a repository supplied and the
evidence fetch raising, `tool_classify_aggregate` propagates the exception
and `handle` surfaces JSON-RPC error -32603 to the caller instead of a
best-effort classification. -/
theorem claim_C5_provider_failure_surfaces_error :
    toolClassifyAggregate pvFail reqRepo = .error "getaddrinfo failed"
  ∧ handleClassifyAggregate pvFail reqRepo =
      .rpcError (-32603) "Internal error: getaddrinfo failed" := by
  constructor <;> rfl

/-- The score dict in closed form: each category is the sum of exactly the
increments the spec lists, with the two metrics branches mutually
exclusive. -/
theorem rawScore_eq (l : String) (pr : ℚ) (rt : Nat) (sn : List String) :
    rawScore l pr rt sn =
      { flake := (if l = "Flaky" then 0.6 else 0) + (if (90.0 : ℚ) ≤ pr then 0.2 else 0),
        regression := (if l = "Regressing" then 0.5 else 0)
          + (if pr ≤ (50.0 : ℚ) ∧ 10 ≤ rt then 0.2 else 0),
        infra := if sn.any snippetIsInfra = true then 0.6 else 0 } := by
  have hFR : ¬(("Flaky" : String) = "Regressing") := by decide
  have hdisj : ∀ x : ℚ, (90.0 : ℚ) ≤ x → x ≤ (50.0 : ℚ) → False := by
    intro x hx hy; linarith
  unfold rawScore
  by_cases h1 : l = "Flaky" <;> by_cases h2 : l = "Regressing" <;>
  by_cases h3 : (90.0 : ℚ) ≤ pr <;> by_cases h4 : pr ≤ (50.0 : ℚ) ∧ 10 ≤ rt <;>
  by_cases h5 : sn.any snippetIsInfra = true <;>
  simp [h1, h2, h3, h4, h5, Score.mk.injEq] <;>
  first
  | exact absurd (h1.symm.trans h2) hFR
  | exact (hdisj pr h3 h4.1).elim

/-- Any successful aggregate call is `classifyCore` applied to the fetched
evidence. -/
theorem toolClassifyAggregate_ok (pv : Providers) (req : ClassifyAggregateRequest)
    (resp : ClassifyAggregateResponse) (h : toolClassifyAggregate pv req = .ok resp) :
    ∃ metricsRes snips,
      fetchMetrics pv req = .ok metricsRes ∧ fetchLogs pv req = .ok snips ∧
      resp = classifyCore req ((metricsRes.map (·.pass_rate)).getD 0.0)
        ((metricsRes.map (·.total)).getD 0) snips
        ((match metricsRes with
          | some m => ["Actions pass_rate=" ++ toString m.pass_rate ++ "% over "
                         ++ toString m.total ++ " runs."]
          | none => []) ++
         (if !snips.isEmpty then
            ["Collected " ++ toString snips.length ++ " error lines from CI logs."]
          else [])) := by
  unfold toolClassifyAggregate at h
  cases hm : fetchMetrics pv req with
  | error e => simp only [hm] at h; exact Except.noConfusion h
  | ok mr =>
    simp only [hm] at h
    cases hl : fetchLogs pv req with
    | error e => simp only [hl] at h; exact Except.noConfusion h
    | ok snips =>
      simp only [hl, Except.ok.injEq] at h
      exact ⟨mr, snips, rfl, rfl, h.symm⟩

/-- C3: each category score is exactly the sum of the spec's increments:
0.6 flake for a Flaky history label, 0.5 regression for Regressing, 0.2
flake for pass_rate at least 90, 0.2 regression for pass_rate at most 50
with at least 10 runs, 0.6 infra when some snippet matches an infra
pattern; with no repository the defaulted metrics contribute nothing. -/
theorem claim_C3_score_increments (pv : Providers) (req : ClassifyAggregateRequest)
    (resp : ClassifyAggregateResponse) (h : toolClassifyAggregate pv req = .ok resp) :
    (resp.score.flake = pyRound3 ((if historyLabel req = "Flaky" then 0.6 else 0)
        + (if (90.0 : ℚ) ≤ resp.evidence.pass_rate then 0.2 else 0))
  ∧ resp.score.regression = pyRound3 ((if historyLabel req = "Regressing" then 0.5 else 0)
        + (if resp.evidence.pass_rate ≤ (50.0 : ℚ) ∧ 10 ≤ resp.evidence.runs_total
           then 0.2 else 0))
  ∧ resp.score.infra =
      pyRound3 (if ∃ s ∈ resp.evidence.log_snippets, snippetIsInfra s = true then 0.6 else 0))
  ∧ (optStrTruthy req.repo = false →
      resp.evidence.pass_rate = 0 ∧ resp.evidence.runs_total = 0) := by
  obtain ⟨mr, snips, hm, hl, hresp⟩ := toolClassifyAggregate_ok pv req resp h
  subst hresp
  constructor
  · refine ⟨?_, ?_, ?_⟩ <;>
      simp only [classifyCore, rawScore_eq, List.any_eq_true]
  · intro hrepo
    unfold fetchMetrics at hm
    rw [hrepo] at hm
    simp only [Bool.false_eq_true, if_false, Except.ok.injEq] at hm
    subst hm
    exact ⟨zeroFloat, rfl⟩

/-- Every classifyCore label is Flaky, Regression or Infra. -/
theorem classifyCore_label_range (req : ClassifyAggregateRequest) (pr : ℚ) (rt : Nat)
    (snips reasons : List String) :
    (classifyCore req pr rt snips reasons).label = "Flaky"
  ∨ (classifyCore req pr rt snips reasons).label = "Regression"
  ∨ (classifyCore req pr rt snips reasons).label = "Infra" := by
  have hps := pickMaxKey_eq_specWinner (rawScore (historyLabel req) pr rt snips)
  rcases specWinner_cases (rawScore (historyLabel req) pr rt snips) with hw | hw | hw <;>
    simp only [classifyCore, hps, hw] <;> decide

/-- When no score increment fires the raw score dict is all zeros. -/
theorem rawScore_zero (l : String) (h1 : l ≠ "Flaky") (h2 : l ≠ "Regressing") :
    rawScore l 0 0 [] = { flake := 0, regression := 0, infra := 0 } := by
  rw [rawScore_eq]
  simp [h1, h2]
  norm_num

/-- With all-zero evidence and a non-Flaky, non-Regressing history label,
classifyCore scores zero everywhere and labels Flaky. -/
theorem classifyCore_all_zero (req : ClassifyAggregateRequest) (reasons : List String)
    (h1 : historyLabel req ≠ "Flaky") (h2 : historyLabel req ≠ "Regressing") :
    (classifyCore req 0.0 0 [] reasons).score = { flake := 0, regression := 0, infra := 0 }
  ∧ (classifyCore req 0.0 0 [] reasons).label = "Flaky"
  ∧ (classifyCore req 0.0 0 [] reasons).flaky = true := by
  have hz : rawScore (historyLabel req) 0.0 0 [] =
      { flake := 0, regression := 0, infra := 0 } := by
    rw [zeroFloat]; exact rawScore_zero _ h1 h2
  have hpk : pickMaxKey { flake := (0 : ℚ), regression := 0, infra := 0 } = "flake" := by
    simp [pickMaxKey]
  refine ⟨?_, ?_, ?_⟩ <;> simp only [classifyCore, hz, hpk] <;>
    first
    | decide
    | (simp [pyRound3_zero])

/-- C9: a successful aggregate response is labelled Flaky, Regression or
Infra, never Stable or Unknown; when no increment can fire the score is
all zeros and the result is Flaky with flaky true. -/
theorem claim_C9_label_range (pv : Providers) (req : ClassifyAggregateRequest)
    (resp : ClassifyAggregateResponse) (h : toolClassifyAggregate pv req = .ok resp) :
    (resp.label = "Flaky" ∨ resp.label = "Regression" ∨ resp.label = "Infra")
  ∧ (optStrTruthy req.repo = false → historyLabel req ≠ "Flaky" →
      historyLabel req ≠ "Regressing" →
      resp.score = { flake := 0, regression := 0, infra := 0 }
      ∧ resp.label = "Flaky" ∧ resp.flaky = true) := by
  obtain ⟨mr, snips, hm, hl, hresp⟩ := toolClassifyAggregate_ok pv req resp h
  subst hresp
  refine ⟨classifyCore_label_range _ _ _ _ _, ?_⟩
  intro hrepo hL1 hL2
  unfold fetchMetrics at hm
  rw [hrepo] at hm
  simp only [Bool.false_eq_true, if_false, Except.ok.injEq] at hm
  subst hm
  unfold fetchLogs at hl
  rw [hrepo] at hl
  simp only [Bool.false_and, Bool.false_eq_true, if_false, Except.ok.injEq] at hl
  subst hl
  exact classifyCore_all_zero req _ hL1 hL2

/-- C10: with run_id equal to 0 the log fetch is skipped entirely: the
result does not depend on the log provider, the returned snippet list is
empty, and no infra score accrues. -/
theorem claim_C10_zero_run_id (pv : Providers)
    (logs2 : String → Int → Nat → Except String (List String))
    (req : ClassifyAggregateRequest) (h : req.run_id = some 0) :
    toolClassifyAggregate pv req = toolClassifyAggregate { pv with logs := logs2 } req
  ∧ (∀ resp, toolClassifyAggregate pv req = .ok resp →
      resp.evidence.log_snippets = [] ∧ resp.score.infra = 0) := by
  have ht : optIntTruthy req.run_id = false := by rw [h]; rfl
  have hfl : ∀ pv2 : Providers, fetchLogs pv2 req = .ok [] := by
    intro pv2; unfold fetchLogs; rw [ht, Bool.and_false]; rfl
  have hmm : fetchMetrics { pv with logs := logs2 } req = fetchMetrics pv req := rfl
  constructor
  · unfold toolClassifyAggregate
    rw [hmm]
    cases fetchMetrics pv req with
    | error e => rfl
    | ok mr => simp only [hfl]
  · intro resp hr
    obtain ⟨mr, snips, hm, hl, hresp⟩ := toolClassifyAggregate_ok pv req resp hr
    rw [hfl pv] at hl
    injection hl with hl
    subst hresp
    subst hl
    refine ⟨rfl, ?_⟩
    simp only [classifyCore, rawScore_eq, List.any_nil, Bool.false_eq_true, if_false]
    exact pyRound3_zero

/-- Providers used by the closed witnesses; never actually consulted. -/
def pvStub : Providers :=
  { metrics := fun _ => .error "unavailable", logs := fun _ _ _ => .error "unavailable" }

/-- A request with a mixed history and no repository. -/
def reqNoRepo : ClassifyAggregateRequest :=
  { test_name := "t", repo := none, run_id := none, history := some ["pass", "fail"],
    max_log_snippets := 20 }

/-- The response the aggregate produces for `reqNoRepo`. -/
def respNoRepo : ClassifyAggregateResponse := classifyCore reqNoRepo 0.0 0 [] []

/-- Closed instance of C3 at a request without a repository. -/
theorem claim_C3_witness :
    (respNoRepo.score.flake = pyRound3 ((if historyLabel reqNoRepo = "Flaky" then 0.6 else 0)
      + (if (90.0 : ℚ) ≤ respNoRepo.evidence.pass_rate then 0.2 else 0)))
  ∧ (optStrTruthy reqNoRepo.repo = false →
      respNoRepo.evidence.pass_rate = 0 ∧ respNoRepo.evidence.runs_total = 0) :=
  ⟨(claim_C3_score_increments pvStub reqNoRepo respNoRepo rfl).1.1,
   (claim_C3_score_increments pvStub reqNoRepo respNoRepo rfl).2⟩

/-- A request with no repository, no run id and no history. -/
def reqEmpty : ClassifyAggregateRequest :=
  { test_name := "t", repo := none, run_id := none, history := none, max_log_snippets := 20 }

/-- The response the aggregate produces for `reqEmpty`. -/
def respEmpty : ClassifyAggregateResponse := classifyCore reqEmpty 0.0 0 [] []

/-- Closed instance of C9 at a request where no increment fires. -/
theorem claim_C9_witness :
    (respEmpty.label = "Flaky" ∨ respEmpty.label = "Regression" ∨ respEmpty.label = "Infra")
  ∧ respEmpty.score = { flake := 0, regression := 0, infra := 0 }
  ∧ respEmpty.label = "Flaky" ∧ respEmpty.flaky = true := by
  have h := claim_C9_label_range pvStub reqEmpty respEmpty rfl
  have h2 := h.2 rfl (by decide) (by decide)
  exact ⟨h.1, h2.1, h2.2.1, h2.2.2⟩

/-- A request with a repository but run_id 0. -/
def reqZeroRun : ClassifyAggregateRequest :=
  { test_name := "t", repo := some "owner/repo", run_id := some 0, history := none,
    max_log_snippets := 20 }

/-- Closed instance of C10 at run_id 0: swapping the log provider does not
change the outcome. -/
theorem claim_C10_witness :
    toolClassifyAggregate pvStub reqZeroRun =
      toolClassifyAggregate { pvStub with logs := fun _ _ _ => .ok ["boom"] } reqZeroRun :=
  (claim_C10_zero_run_id pvStub (fun _ _ _ => .ok ["boom"]) reqZeroRun rfl).1

/-- A file inside the downloaded logs ZIP: its name and its decoded
text. -/
structure ZipEntry where
  name : String
  text : String
  deriving Repr, DecidableEq

/-- Line-break characters recognised by Python `str.splitlines`. -/
def isLineBreak (c : Char) : Bool :=
  c = '\n' || c = '\r' || c = '\x0b' || c = '\x0c' || c = '\x1c' || c = '\x1d' || c = '\x1e'
    || c = '\x85' || c = ' ' || c = ' '

/-- Worker for `pySplitlines`; the accumulator holds the current line
reversed. -/
def pySplitlinesAux (acc : List Char) : List Char → List (List Char)
  | [] => if acc.isEmpty then [] else [acc.reverse]
  | '\r' :: '\n' :: rest => acc.reverse :: pySplitlinesAux [] rest
  | c :: rest =>
    if isLineBreak c then acc.reverse :: pySplitlinesAux [] rest
    else pySplitlinesAux (c :: acc) rest

/-- Python `str.splitlines()`. -/
def pySplitlines (s : String) : List String := (pySplitlinesAux [] s.data).map String.mk

/-- The alternatives of `FAIL_PAT` (log_store.py, line 34). -/
def failTokens : List String := ["FAIL", "FAILED", "ERROR", "Traceback", "AssertionError"]

/-- Regex word characters, restricted to ASCII as the rest of this
embedding is. -/
def isWordChar (c : Char) : Bool := c.isAlphanum || c = '_'

/-- Case-insensitive match of the first list at the head of the second. -/
def ciMatchHead : List Char → List Char → Bool
  | [], _ => true
  | _ :: _, [] => false
  | t :: ts, c :: cs => pyLowerChar t = pyLowerChar c && ciMatchHead ts cs

/-- `FAIL_PAT.search(line)`: some alternative occurs somewhere in the line
with word boundaries on both sides, matched case-insensitively. -/
def failPatSearch (line : String) : Bool :=
  let l := line.data
  (List.range (l.length + 1)).any fun i =>
    failTokens.any fun tok =>
      let t := tok.data
      ciMatchHead t (l.drop i)
      && (decide (i = 0) || !isWordChar (l.getD (i - 1) ' '))
      && (decide (l.length ≤ i + t.length) || !isWordChar (l.getD (i + t.length) ' '))

/-- Inner loop of `extract_failure_snippets` over one file's lines; the
Bool records whether the snippet cap was reached, which in the Python is
an early `return` out of both loops. -/
def scanLines (m : Nat) : List String → List String → List String × Bool
  | acc, [] => (acc, false)
  | acc, ln :: rest =>
    if failPatSearch ln then
      let acc2 := acc ++ [pyStrip ln]
      if m ≤ acc2.length then (acc2, true)
      else scanLines m acc2 rest
    else scanLines m acc rest

/-- Outer loop of `extract_failure_snippets` over the files. -/
def scanFiles (m : Nat) : List String → List (List String) → List String
  | acc, [] => acc
  | acc, f :: rest =>
    match scanLines m acc f with
    | (acc2, true) => acc2
    | (acc2, false) => scanFiles m acc2 rest

/-- Translation of `LogStore.extract_failure_snippets` (log_store.py,
lines 52-67): scan at most `max_files` files, append the stripped matching
lines, return as soon as `max_snippets` have been collected. -/
def extractFailureSnippets (files : List ZipEntry) (max_files max_snippets : Nat) :
    List String :=
  scanFiles max_snippets [] ((files.take max_files).map (fun f => pySplitlines f.text))

/-- The stripped matching lines of one file. -/
def matchedLines (lns : List String) : List String :=
  (lns.filter failPatSearch).map pyStrip

/-- The snippet extraction as the spec words it: the stripped matching
lines of the first `max_files` files, in file-then-line order and without
deduplication, truncated to `max_snippets`. -/
def snippetsSpec (files : List ZipEntry) (max_files max_snippets : Nat) : List String :=
  (((files.take max_files).map (fun f => matchedLines (pySplitlines f.text))).join).take
    max_snippets

theorem scanLines_eq (m : Nat) (lns : List String) :
    ∀ acc : List String, acc.length < m →
      scanLines m acc lns =
        (acc ++ (matchedLines lns).take (m - acc.length),
         decide (m ≤ acc.length + (matchedLines lns).length)) := by
  induction lns with
  | nil =>
    intro acc hacc
    simp only [scanLines, matchedLines, List.filter_nil, List.map_nil, List.take_nil,
      List.append_nil, List.length_nil, Nat.add_zero]
    rw [decide_eq_false (by omega)]
  | cons ln rest ih =>
    intro acc hacc
    by_cases hp : failPatSearch ln = true
    · simp only [scanLines, hp, if_true]
      have hml : matchedLines (ln :: rest) = pyStrip ln :: matchedLines rest := by
        simp [matchedLines, List.filter_cons, hp]
      by_cases hcap : m ≤ acc.length + 1
      · rw [if_pos (show m ≤ (acc ++ [pyStrip ln]).length by simp; omega)]
        have hm1 : m - acc.length = 1 := by omega
        rw [hml, hm1, List.take_succ_cons, List.take_zero,
          decide_eq_true (show m ≤ acc.length + (pyStrip ln :: matchedLines rest).length by
            simp; omega)]
      · rw [if_neg (show ¬m ≤ (acc ++ [pyStrip ln]).length by simp; omega)]
        rw [ih (acc ++ [pyStrip ln]) (by simp; omega)]
        have hm1 : m - acc.length = (m - (acc.length + 1)) + 1 := by omega
        rw [hml, hm1, List.take_succ_cons, Prod.mk.injEq]
        refine ⟨?_, ?_⟩
        · simp only [List.length_append, List.length_cons, List.length_nil, Nat.zero_add,
            List.append_assoc]
          simp
        · simp only [List.length_append, List.length_cons, List.length_nil, Nat.zero_add]
          exact decide_eq_decide.mpr (by omega)
    · simp only [scanLines, hp, if_false, Bool.false_eq_true]
      have hml : matchedLines (ln :: rest) = matchedLines rest := by
        simp [matchedLines, List.filter_cons, hp]
      rw [ih acc hacc, hml]

theorem scanFiles_eq (m : Nat) (fs : List (List String)) :
    ∀ acc : List String, acc.length < m →
      scanFiles m acc fs = acc ++ ((fs.map matchedLines).join).take (m - acc.length) := by
  induction fs with
  | nil => intro acc hacc; simp [scanFiles]
  | cons f rest ih =>
    intro acc hacc
    show (match scanLines m acc f with
      | (acc2, true) => acc2
      | (acc2, false) => scanFiles m acc2 rest) = _
    rw [scanLines_eq m f acc hacc]
    by_cases hflag : m ≤ acc.length + (matchedLines f).length
    · rw [decide_eq_true hflag]
      show acc ++ (matchedLines f).take (m - acc.length) = _
      simp only [List.map_cons, List.join_cons, List.take_append_eq_append_take]
      have : m - acc.length - (matchedLines f).length = 0 := by omega
      rw [this, List.take_zero, List.append_nil]
    · rw [decide_eq_false hflag]
      show scanFiles m (acc ++ (matchedLines f).take (m - acc.length)) rest = _
      have hlen : (matchedLines f).length ≤ m - acc.length := by omega
      rw [List.take_of_length_le hlen]
      rw [ih (acc ++ matchedLines f) (by simp; omega)]
      simp only [List.map_cons, List.join_cons, List.take_append_eq_append_take,
        List.length_append, List.append_assoc]
      have : m - acc.length - (matchedLines f).length = m - (acc.length + (matchedLines f).length) := by
        omega
      rw [this, List.take_of_length_le hlen]

/-- C8 (amended): with a positive snippet cap the extraction returns the
stripped matching lines of at most the first `max_files` files, in
file-then-line order without deduplication, truncated to `max_snippets`;
in particular at most `max_snippets` snippets are returned.  (The claim as
stated for every `max_snippets` fails at `max_snippets = 0`.) -/
theorem claim_C8_extract_snippets (files : List ZipEntry) (max_files max_snippets : Nat)
    (h : 1 ≤ max_snippets) :
    extractFailureSnippets files max_files max_snippets =
      snippetsSpec files max_files max_snippets
  ∧ (extractFailureSnippets files max_files max_snippets).length ≤ max_snippets := by
  have heq : extractFailureSnippets files max_files max_snippets =
      snippetsSpec files max_files max_snippets := by
    unfold extractFailureSnippets snippetsSpec
    rw [scanFiles_eq max_snippets _ [] (by simpa using h)]
    simp [List.map_map]
    rfl
  refine ⟨heq, ?_⟩
  rw [heq]
  unfold snippetsSpec
  exact List.length_take_le _ _

/-- C8 counterexample: at max_snippets = 0 the Python appends a matching
line before checking the cap, so one snippet is returned, exceeding the
cap. -/
theorem claim_C8_counterexample :
    extractFailureSnippets [{ name := "0.txt", text := "FAIL x" }] 10 0 = ["FAIL x"]
  ∧ ¬((extractFailureSnippets [{ name := "0.txt", text := "FAIL x" }] 10 0).length ≤ 0) := by
  constructor <;> decide

/-- Closed instance of the amended C8 at cap 1 over a two-match file. -/
theorem claim_C8_witness :
    extractFailureSnippets [{ name := "0.txt", text := "FAIL a\nok\nERROR b" }] 10 1 =
      snippetsSpec [{ name := "0.txt", text := "FAIL a\nok\nERROR b" }] 10 1 :=
  (claim_C8_extract_snippets [{ name := "0.txt", text := "FAIL a\nok\nERROR b" }] 10 1
    (by decide)).1

/-- UTF-8 encoding of one character as byte values. -/
def utf8Enc (c : Char) : List Nat :=
  let n := c.toNat
  if n < 128 then [n]
  else if n < 2048 then [192 + n / 64, 128 + n % 64]
  else if n < 65536 then [224 + n / 4096, 128 + (n / 64) % 64, 128 + n % 64]
  else [240 + n / 262144, 128 + (n / 4096) % 64, 128 + (n / 64) % 64, 128 + n % 64]

/-- UTF-8 encoding of a string, as the audit log writes it. -/
def utf8Bytes (s : String) : List Nat := (s.data.map utf8Enc).join

/-- Reduce to a 32-bit word. -/
def w32 (x : Nat) : Nat := x % 4294967296

/-- Rotate a 32-bit word right by n. -/
def rotr32 (n x : Nat) : Nat := x / 2 ^ n + (x % 2 ^ n) * 2 ^ (32 - n)

def shaCh (x y z : Nat) : Nat := (x &&& y) ^^^ ((4294967295 ^^^ x) &&& z)

def shaMaj (x y z : Nat) : Nat := (x &&& y) ^^^ (x &&& z) ^^^ (y &&& z)

def bigSigma0 (x : Nat) : Nat := rotr32 2 x ^^^ rotr32 13 x ^^^ rotr32 22 x

def bigSigma1 (x : Nat) : Nat := rotr32 6 x ^^^ rotr32 11 x ^^^ rotr32 25 x

def smallSigma0 (x : Nat) : Nat := rotr32 7 x ^^^ rotr32 18 x ^^^ x / 2 ^ 3

def smallSigma1 (x : Nat) : Nat := rotr32 17 x ^^^ rotr32 19 x ^^^ x / 2 ^ 10

/-- The SHA-256 round constants, written in decimal. -/
def shaK : List Nat :=
  [1116352408, 1899447441, 3049323471, 3921009573, 961987163, 1508970993, 2453635748,
   2870763221, 3624381080, 310598401, 607225278, 1426881987, 1925078388, 2162078206,
   2614888103, 3248222580, 3835390401, 4022224774, 264347078, 604807628, 770255983,
   1249150122, 1555081692, 1996064986, 2554220882, 2821834349, 2952996808, 3210313671,
   3336571891, 3584528711, 113926993, 338241895, 666307205, 773529912, 1294757372,
   1396182291, 1695183700, 1986661051, 2177026350, 2456956037, 2730485921, 2820302411,
   3259730800, 3345764771, 3516065817, 3600352804, 4094571909, 275423344, 430227734,
   506948616, 659060556, 883997877, 958139571, 1322822218, 1537002063, 1747873779,
   1955562222, 2024104815, 2227730452, 2361852424, 2428436474, 2756734187, 3204031479,
   3329325298]

/-- The SHA-256 initial hash state, written in decimal. -/
def shaH0 : List Nat :=
  [1779033703, 3144134277, 1013904242, 2773480762, 1359893119, 2600822924, 528734635,
   1541459225]

/-- Big-endian bytes of a number, fixed width. -/
def toBytesBE : Nat → Nat → List Nat
  | 0, _ => []
  | k + 1, n => toBytesBE k (n / 256) ++ [n % 256]

/-- SHA-256 message padding: a 0x80 byte, zeros to 56 mod 64, then the
bit length in 8 big-endian bytes. -/
def shaPad (msg : List Nat) : List Nat :=
  let L := msg.length
  let zeros := (64 - (L + 9) % 64) % 64
  msg ++ [128] ++ List.replicate zeros 0 ++ toBytesBE 8 (8 * L)

/-- Group bytes into 32-bit big-endian words. -/
def bytesToWords : List Nat → List Nat
  | a :: b :: c :: d :: rest => (((a * 256 + b) * 256 + c) * 256 + d) :: bytesToWords rest
  | _ => []

/-- Extend the 16-word block to the 64-word schedule, one word per
step. -/
def buildSched : List Nat → Nat → List Nat
  | w, 0 => w
  | w, k + 1 =>
    buildSched (w ++ [w32 (smallSigma1 (w.getD (w.length - 2) 0) + w.getD (w.length - 7) 0
      + smallSigma0 (w.getD (w.length - 15) 0) + w.getD (w.length - 16) 0)]) k

/-- One compression round; the state is the eight working variables. -/
def shaRound (st : List Nat) (kw : Nat × Nat) : List Nat :=
  match st with
  | [a, b, c, d, e, f, g, hh] =>
    let t1 := w32 (hh + bigSigma1 e + shaCh e f g + kw.1 + kw.2)
    let t2 := w32 (bigSigma0 a + shaMaj a b c)
    [w32 (t1 + t2), a, b, c, w32 (d + t1), e, f, g]
  | l => l

/-- Compress one 64-byte block into the hash state. -/
def shaCompress (h : List Nat) (block : List Nat) : List Nat :=
  let w := buildSched (bytesToWords block) 48
  let st := (shaK.zip w).foldl shaRound h
  (h.zip st).map (fun p => w32 (p.1 + p.2))

/-- Split into 64-byte chunks; the fuel is any bound on the chunk
count. -/
def chunk64 : Nat → List Nat → List (List Nat)
  | 0, _ => []
  | _ + 1, [] => []
  | fuel + 1, l => l.take 64 :: chunk64 fuel (l.drop 64)

/-- SHA-256 of a byte sequence. -/
def sha256Bytes (msg : List Nat) : List Nat :=
  let padded := shaPad msg
  let blocks := chunk64 padded.length padded
  ((blocks.foldl shaCompress shaH0).map (toBytesBE 4)).join

/-- Lowercase hex digit. -/
def hexChar (n : Nat) : Char := if n < 10 then Char.ofNat (48 + n) else Char.ofNat (87 + n)

/-- `hashlib.sha256(s.encode("utf-8")).hexdigest()`. -/
def sha256hex (s : String) : String :=
  String.mk (((sha256Bytes (utf8Bytes s)).map (fun b => [hexChar (b / 16), hexChar (b % 16)])).join)

/-- JSON escape of one character, as Python `json.dumps` with its default
ensure_ascii produces it: short escapes, backslash-u hex escapes for other
characters outside the printable ASCII range, surrogate pairs beyond the
BMP. -/
def jsonEscapeChar (c : Char) : List Char :=
  let n := c.toNat
  if c = '"' then ['\\', '"']
  else if c = '\\' then ['\\', '\\']
  else if c = '\n' then ['\\', 'n']
  else if c = '\t' then ['\\', 't']
  else if c = '\r' then ['\\', 'r']
  else if c = '\x08' then ['\\', 'b']
  else if c = '\x0c' then ['\\', 'f']
  else if n < 32 ∨ 127 ≤ n then
    if n < 65536 then
      ['\\', 'u', hexChar (n / 4096 % 16), hexChar (n / 256 % 16), hexChar (n / 16 % 16),
       hexChar (n % 16)]
    else
      let v := n - 65536
      let hi := 55296 + v / 1024
      let lo := 56320 + v % 1024
      ['\\', 'u', hexChar (hi / 4096 % 16), hexChar (hi / 256 % 16), hexChar (hi / 16 % 16),
       hexChar (hi % 16),
       '\\', 'u', hexChar (lo / 4096 % 16), hexChar (lo / 256 % 16), hexChar (lo / 16 % 16),
       hexChar (lo % 16)]
  else [c]

/-- A JSON string literal for `s`. -/
def jsonStr (s : String) : String :=
  String.mk ('"' :: ((s.data.map jsonEscapeChar).join ++ ['"']))

/-- The per-call fields of one audit entry.  Python serialises ts and t_ms
as floats and payload and result as dicts; their `json.dumps` forms are
taken here as opaque input strings, while event, ok and prev are
serialised by the model itself. -/
structure AuditInput where
  tsJson : String
  event : String
  ok : Bool
  tmsJson : String
  payloadJson : String
  resultJson : String
  deriving Repr, DecidableEq

/-- One parsed line of the audit log file. -/
structure AuditEntry where
  input : AuditInput
  prev : String
  hash : String
  deriving Repr, DecidableEq

/-- A fallback entry for indexed access. -/
def dummyEntry : AuditEntry :=
  { input := { tsJson := "", event := "", ok := false, tmsJson := "", payloadJson := "",
               resultJson := "" },
    prev := "", hash := "" }

/-- The all-zero sentinel hash. -/
def zeros64 : String := String.mk (List.replicate 64 '0')

/-- `json.dumps(entry, sort_keys=True)` over the entry without its hash
field: the seven keys in sorted order (event, ok, payload, prev, result,
t_ms, ts) with the default separators. -/
def serializeEntryNoHash (inp : AuditInput) (prev : String) : String :=
  "\x7b\"event\": " ++ jsonStr inp.event
    ++ ", \"ok\": " ++ (if inp.ok then "true" else "false")
    ++ ", \"payload\": " ++ inp.payloadJson
    ++ ", \"prev\": " ++ jsonStr prev
    ++ ", \"result\": " ++ inp.resultJson
    ++ ", \"t_ms\": " ++ inp.tmsJson
    ++ ", \"ts\": " ++ inp.tsJson ++ "\x7d"

/-- `_last_hash` (mcp_server.py, lines 18-30) over the modelled file
state: the hash field of the last written entry, or the zero sentinel for
an absent or empty file. -/
def lastHash (entries : List AuditEntry) : String :=
  match entries.getLast? with
  | none => zeros64
  | some e => e.hash

/-- `audit_write` (mcp_server.py, lines 32-46): read the previous hash,
build the entry, hash the sorted-key serialisation of everything but the
hash field, append the entry to the file. -/
def auditWrite (entries : List AuditEntry) (inp : AuditInput) : List AuditEntry :=
  let prev := lastHash entries
  let h := sha256hex (serializeEntryNoHash inp prev)
  entries ++ [{ input := inp, prev := prev, hash := h }]

/-- N sequential `audit_write` calls against an initially absent or empty
log file. -/
def auditRun (inputs : List AuditInput) : List AuditEntry :=
  inputs.foldl auditWrite []

/-- Chain validity from a given previous hash: every link matches and
every stored hash recomputes from the serialised fields excluding the
hash itself. -/
def chainFrom (prevHash : String) : List AuditEntry → Bool
  | [] => true
  | e :: rest =>
    (e.prev == prevHash) && (e.hash == sha256hex (serializeEntryNoHash e.input e.prev))
      && chainFrom e.hash rest

/-- Chain validity of a whole log, anchored at the zero sentinel. -/
def chainOk (es : List AuditEntry) : Bool := chainFrom zeros64 es

theorem chainFrom_snoc (z : String) (es : List AuditEntry) (e : AuditEntry)
    (hes : chainFrom z es = true)
    (hprev : e.prev = (match es.getLast? with | none => z | some x => x.hash))
    (hhash : e.hash = sha256hex (serializeEntryNoHash e.input e.prev)) :
    chainFrom z (es ++ [e]) = true := by
  induction es generalizing z with
  | nil =>
    simp only [List.nil_append, chainFrom, Bool.and_eq_true, beq_iff_eq]
    simp only [List.getLast?_nil] at hprev
    exact ⟨⟨hprev, hhash⟩, trivial⟩
  | cons a rest ih =>
    simp only [chainFrom, Bool.and_eq_true] at hes
    obtain ⟨⟨h1, h2⟩, h3⟩ := hes
    simp only [List.cons_append, chainFrom, Bool.and_eq_true]
    refine ⟨⟨h1, h2⟩, ?_⟩
    apply ih a.hash h3
    cases rest with
    | nil => simpa using hprev
    | cons b t => simpa [List.getLast?_cons_cons] using hprev

theorem chainOk_auditWrite (es : List AuditEntry) (inp : AuditInput)
    (h : chainOk es = true) : chainOk (auditWrite es inp) = true := by
  unfold chainOk at *
  unfold auditWrite
  exact chainFrom_snoc zeros64 es _ h rfl rfl

theorem chainOk_foldl (inputs : List AuditInput) :
    ∀ es, chainOk es = true → chainOk (List.foldl auditWrite es inputs) = true := by
  induction inputs with
  | nil => intro es h; exact h
  | cons i rest ih => intro es h; exact ih _ (chainOk_auditWrite es i h)

theorem auditRun_chainOk (inputs : List AuditInput) : chainOk (auditRun inputs) = true :=
  chainOk_foldl inputs [] rfl

theorem length_foldl_auditWrite (inputs : List AuditInput) :
    ∀ es, (List.foldl auditWrite es inputs).length = es.length + inputs.length := by
  induction inputs with
  | nil => intro es; simp
  | cons i rest ih =>
    intro es
    rw [List.foldl_cons, ih]
    simp [auditWrite]
    omega

/-- The indexed reading of chain validity: the first prev is the anchor,
every later prev is the previous hash, every hash recomputes. -/
theorem chainFrom_getD (z : String) (es : List AuditEntry) (h : chainFrom z es = true) :
    (0 < es.length → (es.getD 0 dummyEntry).prev = z)
  ∧ (∀ i, i < es.length →
      (es.getD i dummyEntry).hash =
        sha256hex (serializeEntryNoHash (es.getD i dummyEntry).input
          (es.getD i dummyEntry).prev))
  ∧ (∀ i, i + 1 < es.length →
      (es.getD (i + 1) dummyEntry).prev = (es.getD i dummyEntry).hash) := by
  induction es generalizing z with
  | nil => simp
  | cons e rest ih =>
    simp only [chainFrom, Bool.and_eq_true, beq_iff_eq] at h
    obtain ⟨⟨h1, h2⟩, h3⟩ := h
    obtain ⟨ih1, ih2, ih3⟩ := ih e.hash h3
    refine ⟨fun _ => h1, ?_, ?_⟩
    · intro i hi
      cases i with
      | zero => simpa using h2
      | succ k =>
        simp only [List.getD_cons_succ]
        exact ih2 k (by simpa using hi)
    · intro i hi
      cases i with
      | zero =>
        simp only [List.getD_cons_succ, List.getD_cons_zero]
        have h0 : 0 < rest.length := by simpa using hi
        have := ih1 h0
        simpa using this
      | succ k =>
        simp only [List.getD_cons_succ]
        exact ih3 k (by simpa using hi)

/-- C2: after N sequential audit writes on an initially absent or empty
log, the file holds N entries whose first prev is the 64-zero sentinel,
whose later prevs equal the preceding entry's hash, and whose stored hash
is the SHA-256 hex digest of the sorted-key JSON serialisation of the
entry excluding the hash field. -/
theorem claim_C2_audit_chain (inputs : List AuditInput) :
    (auditRun inputs).length = inputs.length
  ∧ (0 < (auditRun inputs).length → ((auditRun inputs).getD 0 dummyEntry).prev = zeros64)
  ∧ (∀ i, i + 1 < (auditRun inputs).length →
      ((auditRun inputs).getD (i + 1) dummyEntry).prev =
        ((auditRun inputs).getD i dummyEntry).hash)
  ∧ (∀ i, i < (auditRun inputs).length →
      ((auditRun inputs).getD i dummyEntry).hash =
        sha256hex (serializeEntryNoHash ((auditRun inputs).getD i dummyEntry).input
          ((auditRun inputs).getD i dummyEntry).prev)) := by
  obtain ⟨g1, g2, g3⟩ := chainFrom_getD zeros64 (auditRun inputs) (auditRun_chainOk inputs)
  exact ⟨by simpa using length_foldl_auditWrite inputs [], g1, g3, g2⟩

/-- A concrete audit input for the closed C2 instance. -/
def sampleInput : AuditInput :=
  { tsJson := "1700000000.0", event := "classify_aggregate", ok := true, tmsJson := "0.5",
    payloadJson := "\x7b\x7d", resultJson := "\x7b\x7d" }

/-- Closed instance of C2 for a two-entry run: the second entry's prev is
the first entry's hash, and the first prev is the zero sentinel. -/
theorem claim_C2_witness :
    ((auditRun [sampleInput, sampleInput]).getD 0 dummyEntry).prev = zeros64
  ∧ ((auditRun [sampleInput, sampleInput]).getD 1 dummyEntry).prev =
      ((auditRun [sampleInput, sampleInput]).getD 0 dummyEntry).hash :=
  ⟨(claim_C2_audit_chain [sampleInput, sampleInput]).2.1 (by decide),
   (claim_C2_audit_chain [sampleInput, sampleInput]).2.2.1 0 (by decide)⟩

end FlakyDoctor
